import Mathlib

/-!
Shallow embedding of `src/ambulance-response-analysis/src/
data_scraping_script_cares_data_tables_survival.py`.

Cells (Python `str`) are modelled as `List Char`; a row is a `List` of
cells.  Positioned fragments ("words" from the PDF collaborator) are
modelled as a structure with optional `top` and `text` fields, the
`Option` encoding the Python `'top' in word and 'text' in word` key
presence test.  Vertical offsets are rationals and `round(x, 1)` is
modelled by rounding `10 * x` to an integer key.
-/

/-- A cell of a row: a Python string, as a list of characters. -/
abbrev Cell := List Char

/-- Characters of a string literal, for writing concrete cells. -/
def chars (s : String) : Cell := s.data

/-- Embedding of Python `str.strip`: drop whitespace at both ends. -/
def strip (s : Cell) : Cell :=
  (((s.dropWhile Char.isWhitespace).reverse.dropWhile Char.isWhitespace).reverse)

/-- Embedding of Python `" ".join`. -/
def joinSp : List Cell → Cell
  | [] => []
  | [x] => x
  | x :: xs => x ++ ' ' :: joinSp xs

/-- The `allow_keywords` list of `is_valid_data_row`. -/
def allow_keywords : List Cell :=
  [chars "utstein", chars "location of arrest", chars "arrest witnessed",
   chars "bystander cpr", chars "cpr", chars "aed", chars "hypothermia",
   chars "neurological", chars "category", chars "initial arrest rhythm",
   chars "shockable"]

/-- The `banned_fragments` list of `is_valid_data_row`. -/
def banned_fragments : List Cell :=
  [chars "survival to", chars "total n", chars "rosc", chars "cpc",
   chars "admission", chars "discharge", chars "sample ems", chars "page",
   chars "report", chars "cares", chars "data definitions"]

/-- The `footnote_starts` list of `is_valid_data_row`. -/
def footnote_starts : List Cell :=
  [chars "inclusion criteria", chars "*bystander", chars "april"]

/-- Embedding of Python's substring test `k in s`: `k` occurs as a
contiguous substring of `s`. -/
def occursIn (k : Cell) : Cell → Bool
  | [] => List.isPrefixOf k []
  | s@(_ :: t) => List.isPrefixOf k s || occursIn k t

/-- `" ".join(cell.lower().strip() for cell in row)`: Python `str.lower`
on the (ASCII) report text is character-wise `Char.toLower`. -/
def joinedOf (row : List Cell) : Cell :=
  joinSp (row.map (fun cell => strip (cell.map Char.toLower)))

/-- Embedding of `is_valid_data_row` (row filtering). -/
def is_valid_data_row (row : List Cell) : Bool :=
  let joined := joinedOf row
  if footnote_starts.any (fun f => List.isPrefixOf f joined) then false
  else if banned_fragments.any (fun k => occursIn k joined) then false
  else if allow_keywords.any (fun k => occursIn k joined) then true
  else if row.countP (fun c => !(strip c).isEmpty) ≤ 1 then false
  else true

/-- Embedding of the padding step
`r + [""] * (max_cols - len(r))`: Python's list-repeat with a negative
count yields the empty list, matching `Nat` truncated subtraction. -/
def normRow (maxCols : Nat) (r : List Cell) : List Cell :=
  r ++ List.replicate (maxCols - r.length) []

/-- Embedding of Python list indexing `l[i]` with an `Int` index:
negative indices count from the end; an out-of-range index raises
`IndexError`, modelled as `none`. -/
def pyGet {α : Type} (l : List α) (i : Int) : Option α :=
  if 0 ≤ i then l.get? i.toNat
  else if 0 ≤ (l.length : Int) + i then l.get? ((l.length : Int) + i).toNat
  else none

/-- A positioned text fragment ("word") as returned by
`page.extract_words`: the `Option` fields model the presence test
`'top' in word and 'text' in word`. -/
structure Word where
  top : Option ℚ
  text : Option Cell
deriving DecidableEq

/-- The grouping key and payload of one fragment: `round(word['top'], 1)`
is modelled as the integer number of tenths, `round (10 * top)`; a
fragment missing either attribute yields `none`. -/
def frag (w : Word) : Option (ℤ × Cell) :=
  match w.top, w.text with
  | some t, some s => some (round (10 * t), s)
  | _, _ => none

/-- All valid fragments of a page, in reading order. -/
def fragments (ws : List Word) : List (ℤ × Cell) :=
  ws.filterMap frag

/-- The distinct grouping keys of `lines_by_y`, ascending —
`sorted(lines_by_y.keys())`. -/
def rowKeys (ws : List Word) : List ℤ :=
  List.insertionSort (· ≤ ·) ((fragments ws).map Prod.fst).dedup

/-- Embedding of `extract_text_rows`: for each key in ascending order,
the texts inserted under that key, in insertion (reading) order. -/
def extract_text_rows (ws : List Word) : List (List Cell) :=
  (rowKeys ws).map (fun k => ((fragments ws).filter (fun p => p.1 == k)).map Prod.snd)

/-- The row index (position among the emitted candidate rows) a word is
placed into, `none` for a skipped malformed word. -/
def fragRow (ws : List Word) (w : Word) : Option Nat :=
  (frag w).map (fun p => (rowKeys ws).indexOf p.1)

/-- A written CSV: header row followed by the surviving data rows
(`df.to_csv(..., index=False)` emits the header then the rows). -/
abbrev Csv := List (List Cell)

/-- Body of the per-page loop: extract raw rows, pad to the header
count, filter, and prepend the header row. -/
def processPage (headers : List Cell) (page : List Word) : Csv :=
  let raw := extract_text_rows page
  let normalized := raw.map (fun r => normRow headers.length r)
  let filtered := normalized.filter is_valid_data_row
  headers :: filtered

/-- The page loop over (0-based page number, header set) pairs: each
iteration accesses `pdf.pages[page_num]` (an uncaught `IndexError`
halts the run, leaving the files already written) and writes one CSV. -/
def runPages (doc : List (List Word)) : List (ℤ × List Cell) → List Csv × Option String
  | [] => ([], none)
  | (pn, hdrs) :: rest =>
    match pyGet doc pn with
    | none => ([], some "IndexError: list index out of range")
    | some page =>
      let out := runPages doc rest
      (processPage hdrs page :: out.1, out.2)

/-- The whole run: convert 1-based pages to 0-based, validate the
header/page counts before touching the PDF, then loop. Returns the
CSVs written and the fatal error, if any. -/
def run (doc : List (List Word)) (pagesArg : List ℤ)
    (headersArg : List (List Cell)) : List Csv × Option String :=
  let pageNums := pagesArg.map (fun p => p - 1)
  if headersArg.length ≠ pageNums.length then
    ([], some "Number of --headers sets must match number of --pages.")
  else runPages doc (pageNums.zip headersArg)

example : is_valid_data_row [chars "survival to discharge", chars "cpr"] = false := by decide
example : is_valid_data_row [chars "Utstein", chars "", chars ""] = true := by decide
example : is_valid_data_row [chars "Inclusion criteria: adult patients only", chars ""] = false := by decide
example : is_valid_data_row [chars "Witnessed", chars "Yes", chars "42%"] = true := by decide
example : pyGet [1, 2, 3] (-1) = some 3 := by decide
example : pyGet [1, 2, 3] (-4) = none := by decide
example : pyGet [1, 2, 3] 1 = some 2 := by decide

/-! ### C1: row padding -/

/-- C1 counterexample: with one declared header, the candidate row
`["a", "b"]` is not padded down — its normalized form keeps length 2,
so the padded length does not always equal the header count. -/
theorem c1_counterexample :
    (normRow [chars "h"].length [chars "a", chars "b"]).length ≠ [chars "h"].length := by
  decide

/-- C1 (amended): the padding step produces a row of length
`max (header count) (candidate length)`: the length equals the header
count exactly when the candidate row has at most as many cells as
there are headers; a longer candidate row keeps its own length. -/
theorem normRow_length (headers : List Cell) (r : List Cell) :
    (normRow headers.length r).length = max headers.length r.length := by
  simp only [normRow, List.length_append, List.length_replicate]
  omega

/-! ### C2: non-positive page numbers -/

/-- C2 counterexample: the requested page number 0 is non-positive, yet
on a one-page document `pdf.pages[0 - 1]` silently selects the last
page by Python negative indexing instead of raising. -/
theorem c2_counterexample :
    (0 : ℤ) ≤ 0 ∧ pyGet ([[]] : List (List Word)) ((0 : ℤ) - 1) = some [] := by
  exact ⟨le_refl 0, rfl⟩

/-- C2 (amended): for a non-positive requested page number `p`, the
page access `pdf.pages[p - 1]` is a fatal `IndexError` (halting the
run) precisely when the magnitude of the negative index exceeds the
document length, i.e. when the document has fewer than `1 - p` pages;
otherwise Python's negative indexing silently selects a page counted
from the end. -/
theorem pyGet_nonpos_page (doc : List (List Word)) (p : ℤ) (h : p ≤ 0) :
    (pyGet doc (p - 1) = none ↔ (doc.length : ℤ) < 1 - p) := by
  unfold pyGet
  rw [if_neg (by omega : ¬ (0 : ℤ) ≤ p - 1)]
  split
  · next h2 =>
    rw [List.get?_eq_none]
    omega
  · next h2 =>
    simp only [true_iff]
    omega

/-- Witness for the amended C2 theorem at `p = 0` on a two-page
document: the access does not raise (both sides of the iff are false). -/
theorem pyGet_nonpos_page_witness :
    (pyGet ([[], []] : List (List Word)) ((0 : ℤ) - 1) = none ↔
      (([[], []] : List (List Word)).length : ℤ) < 1 - 0) :=
  pyGet_nonpos_page [[], []] 0 (le_refl 0)

/-! ### C3 - C5: validator keyword rules -/

/-- C3: any row whose joined lowercase string contains a banned
fragment is rejected, allow-keywords notwithstanding (the banned check
is consulted before the allow check); in particular
`["survival to discharge", "cpr"]` is rejected. -/
theorem banned_fragment_rejects :
    (∀ row : List Cell,
      banned_fragments.any (fun k => occursIn k (joinedOf row)) = true →
      is_valid_data_row row = false) ∧
    is_valid_data_row [chars "survival to discharge", chars "cpr"] = false := by
  refine ⟨?_, by decide⟩
  intro row h
  simp [is_valid_data_row, h]

/-- Witness for C3 at the row named by the claim. -/
theorem banned_fragment_rejects_witness :
    banned_fragments.any
        (fun k => occursIn k (joinedOf [chars "survival to discharge", chars "cpr"])) = true ∧
    is_valid_data_row [chars "survival to discharge", chars "cpr"] = false :=
  ⟨by decide, banned_fragment_rejects.1 _ (by decide)⟩

/-- C4: any row whose joined lowercase string contains an allow-keyword
and matches neither a footnote prefix nor a banned fragment is
accepted, regardless of how sparse the row is; in particular
`["Utstein", "", ""]` is accepted with a single non-empty cell. -/
theorem allow_keyword_accepts :
    (∀ row : List Cell,
      allow_keywords.any (fun k => occursIn k (joinedOf row)) = true →
      footnote_starts.any (fun f => List.isPrefixOf f (joinedOf row)) = false →
      banned_fragments.any (fun k => occursIn k (joinedOf row)) = false →
      is_valid_data_row row = true) ∧
    is_valid_data_row [chars "Utstein", chars "", chars ""] = true := by
  refine ⟨?_, by decide⟩
  intro row h1 h2 h3
  simp [is_valid_data_row, h1, h2, h3]

/-- Witness for C4 at the row named by the claim. -/
theorem allow_keyword_accepts_witness :
    allow_keywords.any
        (fun k => occursIn k (joinedOf [chars "Utstein", chars "", chars ""])) = true ∧
    is_valid_data_row [chars "Utstein", chars "", chars ""] = true :=
  ⟨by decide, allow_keyword_accepts.1 _ (by decide) (by decide) (by decide)⟩

/-- C5: any row whose joined lowercase string starts with a
footnote-marker prefix is rejected whatever else it contains; in
particular `["Inclusion criteria: adult patients only", ""]` is
rejected. -/
theorem footnote_start_rejects :
    (∀ row : List Cell,
      footnote_starts.any (fun f => List.isPrefixOf f (joinedOf row)) = true →
      is_valid_data_row row = false) ∧
    is_valid_data_row [chars "Inclusion criteria: adult patients only", chars ""] = false := by
  refine ⟨?_, by decide⟩
  intro row h
  simp [is_valid_data_row, h]

/-- Witness for C5 at the row named by the claim. -/
theorem footnote_start_rejects_witness :
    footnote_starts.any
        (fun f => List.isPrefixOf f
          (joinedOf [chars "Inclusion criteria: adult patients only", chars ""])) = true ∧
    is_valid_data_row [chars "Inclusion criteria: adult patients only", chars ""] = false :=
  ⟨by decide, footnote_start_rejects.1 _ (by decide)⟩

/-! ### C8: header/page count mismatch -/

/-- C8: when the number of `--headers` sets differs from the number of
requested pages, the run halts at the validation step with the
descriptive `ValueError` message; no CSV is produced for any page, and
the result does not depend on the document (no PDF access occurred). -/
theorem header_mismatch_halts (doc : List (List Word)) (pagesArg : List ℤ)
    (headersArg : List (List Cell)) (h : headersArg.length ≠ pagesArg.length) :
    run doc pagesArg headersArg =
      ([], some "Number of --headers sets must match number of --pages.") := by
  simp only [run, List.length_map]
  rw [if_pos h]

/-- Witness for C8: one page requested, no header sets supplied. -/
theorem header_mismatch_halts_witness :
    run [] [1] [] = ([], some "Number of --headers sets must match number of --pages.") :=
  header_mismatch_halts [] [1] [] (by decide)

/-! ### C9: empty pages are not errors -/

/-- C9: a page with zero fragments yields no candidate rows; a page on
which no normalized row passes the validator still produces a CSV
consisting of exactly the header row; and the page loop emits that CSV
and continues with the remaining pages whenever the page access
succeeds. -/
theorem empty_page_not_error :
    extract_text_rows [] = [] ∧
    (∀ (headers : List Cell) (page : List Word),
      ((extract_text_rows page).map (fun r => normRow headers.length r)).filter
          is_valid_data_row = [] →
      processPage headers page = [headers]) ∧
    (∀ (doc : List (List Word)) (pn : ℤ) (hdrs : List Cell)
        (rest : List (ℤ × List Cell)) (page : List Word),
      pyGet doc pn = some page →
      runPages doc ((pn, hdrs) :: rest) =
        (processPage hdrs page :: (runPages doc rest).1, (runPages doc rest).2)) := by
  refine ⟨rfl, ?_, ?_⟩
  · intro headers page h
    simp only [processPage]
    rw [h]
  · intro doc pn hdrs rest page h
    simp only [runPages]
    rw [h]

/-- Witness for C9: an empty single page produces the header-only CSV
and the loop then proceeds to the (empty) remainder of the pages. -/
theorem empty_page_not_error_witness :
    processPage [chars "h"] [] = [[chars "h"]] ∧
    runPages [[]] [((0 : ℤ), [chars "h"])] =
      (processPage [chars "h"] [] :: (runPages [[]] []).1, (runPages [[]] []).2) :=
  ⟨empty_page_not_error.2.1 [chars "h"] [] rfl,
   empty_page_not_error.2.2 [[]] 0 [chars "h"] [] [] rfl⟩

/-! ### C6 - C7: extractor ordering and grouping -/

/-- The emitted grouping keys are strictly ascending: sorting the
deduplicated keys with `≤` yields a list that is both sorted and
duplicate-free. -/
theorem rowKeys_sorted (ws : List Word) : List.Sorted (· < ·) (rowKeys ws) := by
  have hs : List.Sorted (· ≤ ·) (rowKeys ws) := List.sorted_insertionSort _ _
  have hn : (rowKeys ws).Nodup :=
    ((List.perm_insertionSort _ _).nodup_iff).mpr (List.nodup_dedup _)
  exact List.Pairwise.imp (fun h => lt_of_le_of_ne h.1 h.2) (hs.and hn)

/-- C6: candidate rows are emitted in strictly ascending order of their
rounded vertical offset, and the validated rows kept for the output are
a sublist (an order-preserving subsequence) of the normalized rows. -/
theorem rows_ordered_and_filter_preserves (ws : List Word) (headers : List Cell) :
    List.Sorted (· < ·) (rowKeys ws) ∧
    (((extract_text_rows ws).map (fun r => normRow headers.length r)).filter
        is_valid_data_row).Sublist
      ((extract_text_rows ws).map (fun r => normRow headers.length r)) :=
  ⟨rowKeys_sorted ws, List.filter_sublist _⟩

/-- Discarding the malformed words (those missing `top` or `text`)
leaves the valid fragment sequence unchanged. -/
theorem fragments_filter_valid (ws : List Word) :
    fragments (ws.filter (fun w => (frag w).isSome)) = fragments ws := by
  induction ws with
  | nil => rfl
  | cons w ws ih =>
    cases hf : frag w with
    | none =>
      have hs : (frag w).isSome = false := by rw [hf]; rfl
      simp only [fragments, List.filter_cons, hs, Bool.false_eq_true, if_false,
        List.filterMap_cons, hf]
      exact ih
    | some p =>
      simp only [fragments, List.filter_cons, hf, Option.isSome_some, if_true,
        List.filterMap_cons]
      simp only [fragments] at ih
      rw [ih]

/-- The grouping key of a valid word of the page occurs among the
emitted row keys. -/
theorem key_mem_rowKeys {ws : List Word} {w : Word} {p : ℤ × Cell}
    (hm : w ∈ ws) (hf : frag w = some p) : p.1 ∈ rowKeys ws := by
  unfold rowKeys
  rw [(List.perm_insertionSort _ _).mem_iff, List.mem_dedup]
  exact List.mem_map_of_mem _ (List.mem_filterMap.mpr ⟨w, hm, hf⟩)

/-- C7: malformed words are silently excluded — the extractor output on
a page equals its output with the malformed words removed — and two
valid words of a page land in the same candidate row exactly when their
rounded vertical offsets coincide (grouping is key equality). -/
theorem grouping_is_key_equality :
    (∀ ws : List Word,
      extract_text_rows ws = extract_text_rows (ws.filter (fun w => (frag w).isSome))) ∧
    (∀ (ws : List Word) (w1 w2 : Word) (p1 p2 : ℤ × Cell),
      w1 ∈ ws → w2 ∈ ws → frag w1 = some p1 → frag w2 = some p2 →
      (fragRow ws w1 = fragRow ws w2 ↔ p1.1 = p2.1)) := by
  constructor
  · intro ws
    unfold extract_text_rows rowKeys
    rw [fragments_filter_valid]
  · intro ws w1 w2 p1 p2 hm1 hm2 hf1 hf2
    have hk1 : p1.1 ∈ rowKeys ws := key_mem_rowKeys hm1 hf1
    have hk2 : p2.1 ∈ rowKeys ws := key_mem_rowKeys hm2 hf2
    simp only [fragRow, hf1, hf2, Option.map_some', Option.some_inj]
    exact List.indexOf_inj hk1 hk2

/-- Witness for C7: two words at the same vertical offset on a two-word
page are placed in the same row iff their keys agree. -/
theorem grouping_is_key_equality_witness :
    fragRow [⟨some 1, some (chars "a")⟩, ⟨some 1, some (chars "b")⟩]
        ⟨some 1, some (chars "a")⟩ =
      fragRow [⟨some 1, some (chars "a")⟩, ⟨some 1, some (chars "b")⟩]
        ⟨some 1, some (chars "b")⟩ ↔
    (round ((10 : ℚ) * 1), chars "a").1 = (round ((10 : ℚ) * 1), chars "b").1 :=
  grouping_is_key_equality.2 _ _ _ _ _ (.head _) (.tail _ (.head _)) rfl rfl

/-! ### C10: case invariance of the validator -/

/-- Characters with the same code point are equal. -/
theorem char_eq_of_toNat_eq {a b : Char} (h : a.toNat = b.toNat) : a = b :=
  Char.ext (UInt32.ext h)

/-- `Char.isWhitespace` in terms of code points. -/
theorem isWhitespace_iff_toNat {c : Char} :
    c.isWhitespace = true ↔ (c.toNat = 32 ∨ c.toNat = 9 ∨ c.toNat = 13 ∨ c.toNat = 10) := by
  constructor
  · intro h
    have h' : c = ' ' ∨ c = '\t' ∨ c = '\r' ∨ c = '\n' := by
      simpa [Char.isWhitespace, or_assoc] using h
    rcases h' with rfl | rfl | rfl | rfl <;> decide
  · rintro (h | h | h | h)
    · have : c = ' ' := char_eq_of_toNat_eq h
      subst this; decide
    · have : c = '\t' := char_eq_of_toNat_eq h
      subst this; decide
    · have : c = '\r' := char_eq_of_toNat_eq h
      subst this; decide
    · have : c = '\n' := char_eq_of_toNat_eq h
      subst this; decide

/-- Lowercasing a character does not change whether it is whitespace:
`Char.toLower` moves only the code points 65-90, which are not
whitespace, to 97-122, which are not whitespace either. -/
theorem toLower_isWhitespace (c : Char) :
    (Char.toLower c).isWhitespace = c.isWhitespace := by
  simp only [Char.toLower]
  split
  · next h =>
    have hv : (c.toNat + 32).isValidChar := Or.inl (by omega)
    have ht : (Char.ofNat (c.toNat + 32)).toNat = c.toNat + 32 := by
      rw [Char.ofNat, dif_pos hv]; rfl
    have h1 : (Char.ofNat (c.toNat + 32)).isWhitespace = false := by
      by_contra hx
      rw [Bool.not_eq_false] at hx
      rcases isWhitespace_iff_toNat.mp hx with h' | h' | h' | h' <;> rw [ht] at h' <;> omega
    have h2 : c.isWhitespace = false := by
      by_contra hx
      rw [Bool.not_eq_false] at hx
      rcases isWhitespace_iff_toNat.mp hx with h' | h' | h' | h' <;> omega
    rw [h1, h2]
  · rfl

/-- Stripping commutes with lowercasing a cell. -/
theorem strip_map_toLower (s : Cell) :
    strip (s.map Char.toLower) = (strip s).map Char.toLower := by
  have hcomp : Char.isWhitespace ∘ Char.toLower = Char.isWhitespace := by
    funext c
    exact toLower_isWhitespace c
  simp only [strip, List.dropWhile_map, hcomp, ← List.map_reverse]

/-- Whether a cell strips to empty is unchanged by lowercasing. -/
theorem strip_isEmpty_toLower (c : Cell) :
    (strip (c.map Char.toLower)).isEmpty = (strip c).isEmpty := by
  rw [strip_map_toLower]
  cases strip c <;> rfl

/-- The validator, expressed as a function of the cell-wise lowercased
row only. -/
def validCore (low : List Cell) : Bool :=
  let joined := joinSp (low.map strip)
  if footnote_starts.any (fun f => List.isPrefixOf f joined) then false
  else if banned_fragments.any (fun k => occursIn k joined) then false
  else if allow_keywords.any (fun k => occursIn k joined) then true
  else if low.countP (fun c => !(strip c).isEmpty) ≤ 1 then false
  else true

/-- `is_valid_data_row` factors through cell-wise lowercasing: the
keyword matching works on the lowercased joined string, and the
sparsity count is insensitive to case. -/
theorem is_valid_eq_validCore (row : List Cell) :
    is_valid_data_row row = validCore (row.map (List.map Char.toLower)) := by
  simp only [is_valid_data_row, validCore, joinedOf, List.map_map, List.countP_map,
    Function.comp_def, strip_isEmpty_toLower]

/-- C10: the validator's classification is invariant under changing the
letter case of any cell — two rows with the same cell-wise lowercasing
are classified identically. -/
theorem validator_case_invariant (r1 r2 : List Cell)
    (h : r1.map (List.map Char.toLower) = r2.map (List.map Char.toLower)) :
    is_valid_data_row r1 = is_valid_data_row r2 := by
  rw [is_valid_eq_validCore, is_valid_eq_validCore, h]

/-- Witness for C10: `["CPR Total"]` and `["cpr total"]` differ only in
case and get the same classification. -/
theorem validator_case_invariant_witness :
    [chars "CPR Total"].map (List.map Char.toLower) =
      [chars "cpr total"].map (List.map Char.toLower) ∧
    is_valid_data_row [chars "CPR Total"] = is_valid_data_row [chars "cpr total"] :=
  ⟨by decide, validator_case_invariant _ _ (by decide)⟩
